import Mathlib

/-!
Verification of the lushus-session core: a shallow embedding of
`session_state.rs` and `session.rs` (the `SessionState` container and the
`Session` lifecycle aggregate), together with theorems settling the
specification's claims about them.

Rust's `&mut self` methods are embedded in explicit state-passing style:
each operation returns its `Result` together with the (possibly mutated)
session.  Crucially, an operation that fails *after* mutating (the `?`
operator propagating an error out of `Storage::remove`, whose
`HashMap::remove` has already run) returns the mutated session alongside
the error, exactly as the Rust borrow does.  `serde_json` is abstracted as
a per-type `Codec` (an encode/decode function pair standing for the
`Serialize`/`DeserializeOwned` bounds).
-/

/-- Modelled from the spec: the `session_status` module is not present in
the sources (only `session.rs` references `SessionStatus::Changed` and
`SessionStatus::Destroyed` and derives `Default` for `Session`); §3 of the
spec fixes the tri-state tag `Clean`/`Changed`/`Destroyed` with `Clean` as
the initial (default) state. -/
inductive SessionStatus
  | Clean
  | Changed
  | Destroyed
  deriving DecidableEq, Repr

/-- Modelled from the spec: `Default` for `SessionStatus` is `Clean`
("`Clean` (no mutations since load, initial state)"). -/
def SessionStatus.defaultStatus : SessionStatus := SessionStatus.Clean

/-- `SessionState(HashMap<String, String>)` from `session_state.rs`,
modelled as an association list with `HashMap` semantics: lookups find the
unique entry for a key, and insertion overwrites any prior entry. -/
def SessionState : Type := List (String × String)

instance : DecidableEq SessionState :=
  inferInstanceAs (DecidableEq (List (String × String)))

/-- Builds a `SessionState` from an explicit entry list (used for concrete
test states; `Default` for the Rust type is the empty map). -/
def SessionState.mk (entries : List (String × String)) : SessionState := entries

/-- `SessionState::get`: `self.0.get(key)` (returning the stored string). -/
def SessionState.get (s : SessionState) (key : String) : Option String :=
  (List.find? (fun p => p.1 == key) s).map Prod.snd

/-- `SessionState::insert`: `self.0.insert(key.to_string(), value)` —
`HashMap::insert` replaces any existing entry for the key. -/
def SessionState.insert (s : SessionState) (key value : String) : SessionState :=
  (key, value) :: List.filter (fun p => p.1 != key) s

/-- `SessionState::remove`: `self.0.remove(key)` — returns the removed
value (if any) together with the state with the key's entry deleted. -/
def SessionState.remove (s : SessionState) (key : String) :
    Option String × SessionState :=
  (s.get key, List.filter (fun p => p.1 != key) s)

/-- Keys of a state (for the uniqueness invariant). -/
def SessionState.keys (s : SessionState) : List String :=
  List.map Prod.fst s

/-- Modelled from the spec: the `storage` module (the `Storage` trait and
its error enums `StorageInsertError`, `StorageRemoveError`,
`StorageGetError`, wrapped into `StorageError`) is not present in the
sources; `session.rs` constructs
`StorageInsertError::SerializeError(key, cause)`,
`StorageRemoveError::DeserializeError(key, cause)` and
`StorageGetError::DeserializeError(key, cause)`, each converted into
`StorageError` via `From` (§7's error taxonomy). -/
inductive StorageError
  | insertSerializeError (key cause : String)
  | removeDeserializeError (key cause : String)
  | getDeserializeError (key cause : String)
  deriving DecidableEq, Repr

/-- `SessionError` from `session.rs`: a storage error wrapped
transparently, or the destroyed-session guard error. -/
inductive SessionError
  | SessionStorageError (e : StorageError)
  | SessionDestroyedError
  deriving DecidableEq, Repr

/-- Abstraction of the `Serialize` / `DeserializeOwned` bounds for a
payload type `T`: `enc` stands for `serde_json::to_string`, `dec` for
`serde_json::from_str`; either may fail with an error message (the
`e.to_string()` cause). -/
structure Codec (T : Type) where
  enc : T → Except String String
  dec : String → Except String T

/-- `Session` from `session.rs`: one owned `SessionState` and one
`SessionStatus`. -/
structure Session where
  state : SessionState
  status : SessionStatus
  deriving DecidableEq

/-- `Session::default()` (`#[derive(Default)]`): empty state, default
(`Clean`) status. -/
def Session.defaultSession : Session :=
  ⟨SessionState.mk [], SessionStatus.defaultStatus⟩

/-- `Session::destroy`: unconditionally sets the status to `Destroyed`. -/
def Session.destroy (s : Session) : Session :=
  { s with status := SessionStatus.Destroyed }

/-- `Session::active`: `self.status != SessionStatus::Destroyed`. -/
def Session.active (s : Session) : Bool :=
  s.status != SessionStatus.Destroyed

/-- `<Session as Storage<&str>>::insert`: serialize the value (failure:
`SerializeError`, state untouched); on success store the encoding under
`key`. -/
def Storage.insert {T : Type} (c : Codec T) (s : Session) (key : String)
    (value : T) : Except StorageError Unit × Session :=
  match c.enc value with
  | .error e => (.error (.insertSerializeError key e), s)
  | .ok enc => (.ok (), { s with state := s.state.insert key enc })

/-- `<Session as Storage<&str>>::remove`: `self.state.remove(key)` runs
first (the entry is deleted regardless); decoding the removed value only
shapes the returned payload, so a decode failure still returns the mutated
state. -/
def Storage.remove {T : Type} (c : Codec T) (s : Session) (key : String) :
    Except StorageError (Option T) × Session :=
  match s.state.remove key with
  | (none, st2) => (.ok none, { s with state := st2 })
  | (some v, st2) =>
    match c.dec v with
    | .ok t => (.ok (some t), { s with state := st2 })
    | .error e => (.error (.removeDeserializeError key e), { s with state := st2 })

/-- `<Session as Storage<&str>>::get`: a pure read (`&self`); decodes the
stored string if present. -/
def Storage.get {T : Type} (c : Codec T) (s : Session) (key : String) :
    Except StorageError (Option T) :=
  match s.state.get key with
  | none => .ok none
  | some v =>
    match c.dec v with
    | .ok t => .ok (some t)
    | .error e => .error (.getDeserializeError key e)

/-- `Session::insert`: guard on `active()`; delegate to the storage layer
(`?` propagates its error, wrapped as `SessionStorageError`, with whatever
mutation already happened kept); on success set status to `Changed`. -/
def Session.insert {T : Type} (c : Codec T) (s : Session) (key : String)
    (value : T) : Except SessionError Unit × Session :=
  if s.active then
    match Storage.insert c s key value with
    | (.error e, s2) => (.error (.SessionStorageError e), s2)
    | (.ok _, s2) => (.ok (), { s2 with status := SessionStatus.Changed })
  else
    (.error .SessionDestroyedError, s)

/-- `Session::remove`: guard on `active()`; delegate; on success (even
`None`) set status to `Changed`; on storage error the error propagates via
`?` *before* the status assignment, so the status is left as it was. -/
def Session.remove {T : Type} (c : Codec T) (s : Session) (key : String) :
    Except SessionError (Option T) × Session :=
  if s.active then
    match Storage.remove c s key with
    | (.error e, s2) => (.error (.SessionStorageError e), s2)
    | (.ok r, s2) => (.ok r, { s2 with status := SessionStatus.Changed })
  else
    (.error .SessionDestroyedError, s)

/-- `Session::get`: guard on `active()`; `&self` receiver, so the session
is returned unchanged in every case. -/
def Session.get {T : Type} (c : Codec T) (s : Session) (key : String) :
    Except SessionError (Option T) × Session :=
  if s.active then
    match Storage.get c s key with
    | .error e => (.error (.SessionStorageError e), s)
    | .ok r => (.ok r, s)
  else
    (.error .SessionDestroyedError, s)

/-- `impl From<Session> for SessionState`: `session.state`. -/
def SessionState.ofSession (s : Session) : SessionState := s.state

/-- `impl From<SessionState> for Session`: carries the state, status
`Default::default()` (i.e. `Clean`). -/
def Session.ofState (st : SessionState) : Session :=
  ⟨st, SessionStatus.defaultStatus⟩

/-! ### Helper lemmas on `SessionState` -/

theorem find?_filter_ne (l : List (String × String)) (k k2 : String)
    (h : k2 ≠ k) :
    List.find? (fun p => p.1 == k2) (List.filter (fun p => p.1 != k) l) =
      List.find? (fun p => p.1 == k2) l := by
  induction l with
  | nil => rfl
  | cons a l ih =>
    by_cases hk : a.1 = k
    · have h1 : (a.1 != k) = false := by simp [hk]
      have h2 : (a.1 == k2) = false := by
        rw [hk]
        exact beq_eq_false_iff_ne.mpr fun he => h he.symm
      simp only [List.filter_cons, h1, Bool.false_eq_true, if_false,
        List.find?_cons, h2, ih]
    · have h1 : (a.1 != k) = true := bne_iff_ne.mpr hk
      by_cases h2 : a.1 = k2
      · have h2b : (a.1 == k2) = true := beq_iff_eq.mpr h2
        simp only [List.filter_cons, h1, if_true, List.find?_cons, h2b]
      · have h2b : (a.1 == k2) = false := beq_eq_false_iff_ne.mpr h2
        simp only [List.filter_cons, h1, if_true, List.find?_cons, h2b, ih]

theorem SessionState.get_filter_self (st : SessionState) (k : String) :
    SessionState.get (List.filter (fun p => p.1 != k) st) k = none := by
  unfold SessionState.get
  rw [Option.map_eq_none', List.find?_eq_none]
  intro p hp
  have := List.of_mem_filter hp
  simp [bne] at this
  simp [this]

theorem SessionState.get_insert_self (st : SessionState) (k v : String) :
    SessionState.get (st.insert k v) k = some v := by
  unfold SessionState.get SessionState.insert
  simp [List.find?_cons]

theorem SessionState.get_insert_ne (st : SessionState) (k v k2 : String)
    (h : k2 ≠ k) :
    SessionState.get (st.insert k v) k2 = st.get k2 := by
  unfold SessionState.get SessionState.insert
  have hk : (k == k2) = false := by
    simp
    exact fun he => h he.symm
  simp [List.find?_cons, hk, find?_filter_ne st k k2 h]

theorem SessionState.keys_nodup_insert (st : SessionState) (k v : String)
    (h : List.Nodup st.keys) :
    List.Nodup (SessionState.insert st k v).keys := by
  unfold SessionState.keys SessionState.insert
  rw [List.map_cons, List.nodup_cons]
  constructor
  · intro hmem
    rcases List.mem_map.mp hmem with ⟨p, hp, hpk⟩
    have := List.of_mem_filter hp
    simp [bne] at this
    exact this hpk
  · exact List.Nodup.sublist
      (List.Sublist.map Prod.fst (List.filter_sublist st)) h

/-! ### Concrete payloads for evaluated instances -/

/-- Reads a decimal digit string (most significant first) into the
accumulator; any non-digit character aborts the parse. -/
def decodeNatDigits : List Char → Nat → Option Nat
  | [], acc => some acc
  | c :: cs, acc =>
    if c.isDigit then decodeNatDigits cs (10 * acc + (c.toNat - 48))
    else none

/-- Parses a non-empty decimal digit string into a `Nat`. -/
def decodeNat (s : String) : Option Nat :=
  match s.data with
  | [] => none
  | cs => decodeNatDigits cs 0

/-- Concrete codec for `Nat` payloads (the stand-in for a specific
serde-serializable type such as `i64`): encodes as the decimal literal,
decodes by parsing it back; a non-numeric stored string fails to decode,
as `serde_json::from_str` does for a type mismatch. -/
def natCodec : Codec Nat :=
  ⟨fun n => .ok (toString n),
   fun s =>
     match decodeNat s with
     | some n => .ok n
     | none => .error "invalid Nat literal"⟩

/-- Concrete destroyed session holding one entry. -/
def destroyedSession : Session :=
  ⟨SessionState.mk [("user", "1")], SessionStatus.Destroyed⟩

/-- Concrete clean session holding a value that does not decode as `Nat`. -/
def cleanBadSession : Session :=
  ⟨SessionState.mk [("k", "x")], SessionStatus.Clean⟩

/-- Concrete clean session with a prior value under `"k"` (overwrite
target) and an unrelated entry. -/
def overwriteSession : Session :=
  ⟨SessionState.mk [("k", "0"), ("other", "5")], SessionStatus.Clean⟩

/-! ### Shared reduction lemmas for the session operations -/

theorem storage_remove_decode_error {T : Type} (c : Codec T) (s : Session)
    (k enc e : String) (hget : s.state.get k = some enc)
    (hdec : c.dec enc = .error e) :
    Storage.remove c s k =
      (.error (.removeDeserializeError k e),
       ⟨List.filter (fun p => p.1 != k) s.state, s.status⟩) := by
  simp [Storage.remove, SessionState.remove, hget, hdec]

theorem session_remove_decode_error {T : Type} (c : Codec T) (s : Session)
    (k enc e : String) (hactive : s.active = true)
    (hget : s.state.get k = some enc) (hdec : c.dec enc = .error e) :
    Session.remove c s k =
      (.error (.SessionStorageError (.removeDeserializeError k e)),
       ⟨List.filter (fun p => p.1 != k) s.state, s.status⟩) := by
  simp [Session.remove, hactive,
    storage_remove_decode_error c s k enc e hget hdec]

theorem session_insert_ok {T : Type} (c : Codec T) (s : Session)
    (k : String) (v : T) (enc : String) (hactive : s.active = true)
    (henc : c.enc v = .ok enc) :
    Session.insert c s k v =
      (.ok (), ⟨s.state.insert k enc, SessionStatus.Changed⟩) := by
  simp [Session.insert, hactive, Storage.insert, henc]

/-! ### Claim theorems -/

/-- Claim C1: for every destroyed session, `insert`, `remove` and `get`
each return `SessionDestroyedError` and leave the session — state and
status — completely unchanged: the guard fires before any
(de)serialization or mutation. -/
theorem destroyed_guard {T : Type} (c : Codec T) (s : Session)
    (h : s.status = SessionStatus.Destroyed) (k : String) (v : T) :
    Session.insert c s k v = (.error .SessionDestroyedError, s) ∧
    Session.remove c s k = (.error .SessionDestroyedError, s) ∧
    Session.get c s k = (.error .SessionDestroyedError, s) := by
  have ha : s.active = false := by simp [Session.active, h]
  refine ⟨?_, ?_, ?_⟩ <;>
    simp [Session.insert, Session.remove, Session.get, ha]

/-- Claim C1 witness: the guard at a concrete destroyed session with a
stored entry. -/
theorem destroyed_guard_witness :
    Session.insert natCodec destroyedSession "user" 7 =
      (.error .SessionDestroyedError, destroyedSession) ∧
    Session.remove natCodec destroyedSession "user" =
      (.error .SessionDestroyedError, destroyedSession) ∧
    Session.get natCodec destroyedSession "user" =
      (.error .SessionDestroyedError, destroyedSession) :=
  destroyed_guard natCodec destroyedSession rfl "user" 7

/-- Claim C5: converting a `SessionState` into a `Session` and back yields
the same state, and the conversion out of a `Session` discards the status
(it is not part of the state), so the round trip is status-independent. -/
theorem state_session_roundtrip (st : SessionState) (tag : SessionStatus) :
    SessionState.ofSession (Session.ofState st) = st ∧
    SessionState.ofSession ⟨st, tag⟩ = st :=
  ⟨rfl, rfl⟩

/-- Claim C7: `get` is a pure read: in every case — hit, miss, decode
failure, destroyed guard — the session (state and status alike) is
returned unchanged. -/
theorem get_pure_read {T : Type} (c : Codec T) (s : Session) (k : String) :
    (Session.get c s k).2 = s := by
  cases hb : s.active with
  | false => simp [Session.get, hb]
  | true => cases hg : Storage.get c s k <;> simp [Session.get, hb, hg]

/-- Claim C8: a session constructed from any `SessionState` starts with
status `Clean` and reports `active() = true`. -/
theorem ofState_starts_clean (st : SessionState) :
    (Session.ofState st).status = SessionStatus.Clean ∧
    (Session.ofState st).active = true :=
  ⟨rfl, rfl⟩

/-- Claim C9: `destroy` unconditionally sets the status to `Destroyed`;
it is idempotent (a second `destroy` is observably identical); `active` is
false exactly when the status is `Destroyed`; and once destroyed, no
operation (`insert`, `remove`, `get`, `destroy`) moves the status out of
`Destroyed`. -/
theorem destroy_lifecycle {T : Type} (c : Codec T) (s : Session)
    (k : String) (v : T) :
    (Session.destroy s).status = SessionStatus.Destroyed ∧
    Session.destroy (Session.destroy s) = Session.destroy s ∧
    (s.active = false ↔ s.status = SessionStatus.Destroyed) ∧
    (s.status = SessionStatus.Destroyed →
      ((Session.insert c s k v).2).status = SessionStatus.Destroyed ∧
      ((Session.remove c s k).2).status = SessionStatus.Destroyed ∧
      ((Session.get c s k).2).status = SessionStatus.Destroyed ∧
      (Session.destroy s).status = SessionStatus.Destroyed) := by
  refine ⟨rfl, rfl, ?_, ?_⟩
  · simp [Session.active]
  · intro h
    have ha : s.active = false := by simp [Session.active, h]
    refine ⟨?_, ?_, ?_, rfl⟩ <;>
      simp [Session.insert, Session.remove, Session.get, ha, h]

/-- Claim C9 witness: the lifecycle facts at concrete sessions, with the
destroyed-status hypothesis discharged at `destroyedSession`. -/
theorem destroy_lifecycle_witness :
    (Session.destroy Session.defaultSession).status =
      SessionStatus.Destroyed ∧
    Session.destroy (Session.destroy Session.defaultSession) =
      Session.destroy Session.defaultSession ∧
    ((Session.insert natCodec destroyedSession "k" 1).2).status =
      SessionStatus.Destroyed ∧
    ((Session.remove natCodec destroyedSession "k").2).status =
      SessionStatus.Destroyed := by
  have h1 := destroy_lifecycle natCodec Session.defaultSession "k" 1
  have h2 := destroy_lifecycle natCodec destroyedSession "k" 1
  exact ⟨h1.1, h1.2.1, (h2.2.2.2 rfl).1, (h2.2.2.2 rfl).2.1⟩

/-- Claim C2: on an active session, removing a key whose stored value
fails to decode as the requested type returns a
`DeserializeError` (wrapped as `SessionStorageError`), yet the key is
removed from the underlying state: a subsequent `get` of that key — at
any type — returns `Ok(None)`. -/
theorem remove_decode_failure {T : Type} (c : Codec T) (s : Session)
    (k enc e : String)
    (hactive : s.active = true)
    (hget : s.state.get k = some enc)
    (hdec : c.dec enc = .error e) :
    (Session.remove c s k).1 =
      .error (.SessionStorageError (.removeDeserializeError k e)) ∧
    ((Session.remove c s k).2).state.get k = none ∧
    ∀ (U : Type) (c2 : Codec U),
      (Session.get c2 (Session.remove c s k).2 k).1 = .ok none := by
  have hrem := session_remove_decode_error c s k enc e hactive hget hdec
  refine ⟨by rw [hrem], ?_, ?_⟩
  · rw [hrem]
    exact SessionState.get_filter_self s.state k
  · intro U c2
    rw [hrem]
    have ha2 : Session.active
        ⟨List.filter (fun p => p.1 != k) s.state, s.status⟩ = true := hactive
    simp [Session.get, ha2, Storage.get, SessionState.get_filter_self]

/-- Claim C2 witness: removing `"k"` (stored as the non-numeric string
`"x"`) as a `Nat` from a concrete clean session fails with a
`DeserializeError`, and a subsequent `get` returns `Ok(None)`. -/
theorem remove_decode_failure_witness :
    (Session.remove natCodec cleanBadSession "k").1 =
      .error (.SessionStorageError
        (.removeDeserializeError "k" "invalid Nat literal")) ∧
    ((Session.remove natCodec cleanBadSession "k").2).state.get "k" =
      none ∧
    (Session.get natCodec
        (Session.remove natCodec cleanBadSession "k").2 "k").1 =
      .ok none := by
  have h := remove_decode_failure natCodec cleanBadSession "k" "x"
    "invalid Nat literal" rfl rfl rfl
  exact ⟨h.1, h.2.1, h.2.2 Nat natCodec⟩

/-- Claim C3: on an active session, a successful `insert` of a value whose
encoding decodes back to it makes `get` at the same key and type return
`Ok(Some(v))`, and the session's status after the insert is `Changed`. -/
theorem insert_then_get {T : Type} (c : Codec T) (s : Session)
    (k : String) (v : T) (enc : String)
    (hactive : s.active = true)
    (henc : c.enc v = .ok enc)
    (hdec : c.dec enc = .ok v) :
    (Session.insert c s k v).1 = .ok () ∧
    ((Session.insert c s k v).2).status = SessionStatus.Changed ∧
    (Session.get c (Session.insert c s k v).2 k).1 = .ok (some v) := by
  have hins := session_insert_ok c s k v enc hactive henc
  refine ⟨by rw [hins], by rw [hins], ?_⟩
  rw [hins]
  simp [Session.get, Session.active, Storage.get,
    SessionState.get_insert_self, hdec]

/-- Claim C3 witness: inserting `42` under `"count"` into a default
session then reading it back. -/
theorem insert_then_get_witness :
    (Session.insert natCodec Session.defaultSession "count" 42).1 =
      .ok () ∧
    ((Session.insert natCodec Session.defaultSession "count" 42).2).status =
      SessionStatus.Changed ∧
    (Session.get natCodec
        (Session.insert natCodec Session.defaultSession "count" 42).2
        "count").1 = .ok (some 42) :=
  insert_then_get natCodec Session.defaultSession "count" 42 "42"
    rfl rfl rfl

/-- Claim C4: on a session whose status is `Clean`, a `remove` that hits a
value failing to decode returns an error and still removes the key from
the state, but the status stays `Clean` (the `Changed` transition is
skipped on the error path), so the mutation is not signalled. -/
theorem remove_decode_failure_keeps_clean {T : Type} (c : Codec T)
    (s : Session) (k enc e : String)
    (hclean : s.status = SessionStatus.Clean)
    (hget : s.state.get k = some enc)
    (hdec : c.dec enc = .error e) :
    (Session.remove c s k).1 =
      .error (.SessionStorageError (.removeDeserializeError k e)) ∧
    ((Session.remove c s k).2).state.get k = none ∧
    ((Session.remove c s k).2).status = SessionStatus.Clean := by
  have hactive : s.active = true := by simp [Session.active, hclean]
  have hrem := session_remove_decode_error c s k enc e hactive hget hdec
  refine ⟨by rw [hrem], ?_, by rw [hrem]; exact hclean⟩
  rw [hrem]
  exact SessionState.get_filter_self s.state k

/-- Claim C4 witness: the clean session storing the non-`Nat` string `"x"`
under `"k"`: remove fails, the key is gone, the status is still `Clean`. -/
theorem remove_decode_failure_keeps_clean_witness :
    (Session.remove natCodec cleanBadSession "k").1 =
      .error (.SessionStorageError
        (.removeDeserializeError "k" "invalid Nat literal")) ∧
    ((Session.remove natCodec cleanBadSession "k").2).state.get "k" =
      none ∧
    ((Session.remove natCodec cleanBadSession "k").2).status =
      SessionStatus.Clean :=
  remove_decode_failure_keeps_clean natCodec cleanBadSession "k" "x"
    "invalid Nat literal" rfl rfl rfl

/-- Claim C6: on an active session, removing an absent key returns
`Ok(None)` with no error, and the status still transitions to `Changed`
(an attempted remove counts as a mutation). -/
theorem remove_absent_changes_status {T : Type} (c : Codec T)
    (s : Session) (k : String)
    (hactive : s.active = true)
    (habsent : s.state.get k = none) :
    (Session.remove c s k).1 = .ok none ∧
    ((Session.remove c s k).2).status = SessionStatus.Changed := by
  have hrem : Storage.remove c s k =
      (.ok none,
       ⟨List.filter (fun p => p.1 != k) s.state, s.status⟩) := by
    simp [Storage.remove, SessionState.remove, habsent]
  simp [Session.remove, hactive, hrem]

/-- Claim C6 witness: removing the absent key `"missing"` from a default
(empty, clean) session. -/
theorem remove_absent_changes_status_witness :
    (Session.remove natCodec Session.defaultSession "missing").1 =
      .ok none ∧
    ((Session.remove natCodec Session.defaultSession "missing").2).status =
      SessionStatus.Changed :=
  remove_absent_changes_status natCodec Session.defaultSession "missing"
    rfl rfl

/-- Claim C10: on an active session, a successful `insert` stores the
encoding of the value under the key, unconditionally overwriting any
prior value (the new lookup yields exactly the new encoding, with no
condition on what was there before); every other key is untouched; and
key uniqueness is preserved. -/
theorem insert_overwrites {T : Type} (c : Codec T) (s : Session)
    (k : String) (v : T) (enc : String)
    (hactive : s.active = true)
    (henc : c.enc v = .ok enc) :
    (Session.insert c s k v).1 = .ok () ∧
    ((Session.insert c s k v).2).state.get k = some enc ∧
    (∀ k2, k2 ≠ k →
      ((Session.insert c s k v).2).state.get k2 = s.state.get k2) ∧
    (List.Nodup s.state.keys →
      List.Nodup ((Session.insert c s k v).2).state.keys) := by
  have hins := session_insert_ok c s k v enc hactive henc
  rw [hins]
  exact ⟨rfl, SessionState.get_insert_self s.state k enc,
    fun k2 h2 => SessionState.get_insert_ne s.state k enc k2 h2,
    fun hnd => SessionState.keys_nodup_insert s.state k enc hnd⟩

/-- Claim C10 witness: inserting `42` under `"k"` into a session that
already holds `"0"` under `"k"`: the old value is fully replaced, the
entry under `"other"` is untouched, and keys stay unique. -/
theorem insert_overwrites_witness :
    (Session.insert natCodec overwriteSession "k" 42).1 = .ok () ∧
    ((Session.insert natCodec overwriteSession "k" 42).2).state.get "k" =
      some "42" ∧
    ((Session.insert natCodec overwriteSession "k" 42).2).state.get
      "other" = overwriteSession.state.get "other" ∧
    List.Nodup
      ((Session.insert natCodec overwriteSession "k" 42).2).state.keys := by
  have h := insert_overwrites natCodec overwriteSession "k" 42 "42" rfl rfl
  exact ⟨h.1, h.2.1, h.2.2.1 "other" (by decide), h.2.2.2 (by decide)⟩
